import Mathlib

/-!
# `gh repo archive` : a shallow embedding of `pkg/cmd/repo/archive/archive.go`

The command is sequential code that talks to a handful of collaborators
(HTTP client factory, context lookup, configuration, identity lookup, state
fetch, confirm prompt, archive mutation) and writes to two streams.  Each
collaborator is called at most once per run, so a collaborator is modelled by
the answer it gives (`Env`), and a run is modelled by the pair of the error it
returns and the ordered list of collaborator calls and stream writes it made
(`Outcome`).
-/

namespace Archive

/-- Go `error` values that the command returns: an error produced by a
collaborator, a `cmdutil.FlagErrorf` error, or `fmt.Errorf("<pre>: %w", inner)`. -/
inductive Err where
  | base (msg : String)
  | flag (msg : String)
  | wrap (pre : String) (inner : Err)
  deriving DecidableEq

/-- Message of an error, as Go's `Error()` renders it. -/
def Err.message : Err → String
  | .base m => m
  | .flag m => m
  | .wrap p e => p ++ ": " ++ e.message

/-- Values behind `ghrepo.Interface` : `RepoOwner()`, `RepoName()`, `RepoHost()`. -/
structure Repo where
  owner : String
  name : String
  host : String
  deriving DecidableEq

/-- The part of `api.Repository` that the command asks for:
`fields := []string{"name", "owner", "isArchived", "id"}`. -/
structure Repository where
  id : String
  name : String
  owner : String
  isArchived : Bool
  deriving DecidableEq

/-- One observable step of a run: a collaborator call (with its arguments) or a
write to a stream. -/
inductive Event where
  | HttpClient
  | BaseRepo
  | Config
  | DefaultHost
  | CurrentLoginName (hostname : String)
  | FetchRepository (repo : Repo) (fields : List String)
  | SurveyAskOne (message : String) (dflt : Bool)
  | archiveRepo (repo : Repository)
  | ErrOut (text : String)
  | Out (text : String)
  deriving DecidableEq

/-- What a run returns (`none` is Go's `nil` error) and what it did, in order. -/
structure Outcome where
  err : Option Err
  trace : List Event
  deriving DecidableEq

/-- The fields of `ArchiveOptions` that are plain data. -/
structure ArchiveOptions where
  RepoArg : String
  HasRepoOverride : Bool
  Confirmed : Bool
  deriving DecidableEq

/-- The collaborators of `ArchiveOptions` and of `archiveRun`, each given by the
answer it returns when called. -/
structure Env where
  /-- Answer of `opts.HttpClient()` -/
  HttpClient : Except Err Unit
  /-- Answer of `opts.BaseRepo()` -/
  BaseRepo : Except Err Repo
  /-- Answer of `opts.Config()` -/
  Config : Except Err Unit
  /-- Answer of `cfg.DefaultHost()` -/
  DefaultHost : Except Err String
  /-- Answer of `api.CurrentLoginName(apiClient, hostname)` -/
  CurrentLoginName : String → Except Err String
  /-- Answer of `api.FetchRepository(apiClient, toArchive, fields)` -/
  FetchRepository : Repo → List String → Except Err Repository
  /-- Answer of `prompt.SurveyAskOne(p, &opts.Confirmed)` : the value stored, or an error -/
  SurveyAskOne : String → Bool → Except Err Bool
  /-- Answer of `archiveRepo(httpClient, repo)` -/
  archiveRepo : Repository → Except Err Unit
  /-- Answer of `opts.IO.CanPrompt()` -/
  CanPrompt : Bool
  /-- Answer of `opts.IO.IsStdoutTTY()` -/
  IsStdoutTTY : Bool
  /-- Answer of `cs.WarningIcon()` -/
  WarningIcon : String
  /-- Answer of `cs.SuccessIcon()` -/
  SuccessIcon : String
  /-- The host that `ghrepo` gives to a reference parsed from a string naming no host -/
  ghHost : String

namespace ghrepo

/-- Modelled from the spec: `ghrepo.FullName` is not among the sources.  The spec
says of a RepositoryReference that its "display [is] `owner/name`". -/
def FullName (r : Repo) : String :=
  r.owner ++ "/" ++ r.name

/-- Components of a string between its `/` separators. -/
def splitSlash : List Char → List (List Char)
  | [] => [[]]
  | c :: cs =>
    if c = '/' then [] :: splitSlash cs
    else
      match splitSlash cs with
      | [] => [[c]]
      | p :: ps => (c :: p) :: ps

/-- Modelled from the spec: `ghrepo.FromFullName` is not among the sources.  The
spec says that a selector with an `owner/name` separator is "parse[d] directly
into a RepositoryReference", that this "fails with `MalformedSelectorError` on
structurally invalid input", and that owner and name of a reference are "both
non-empty once resolved".  So a string parses when it is two non-empty
components around one separator; the string names no host, and the reference
gets the host `dh`. -/
def FromFullName (dh : String) (nwo : String) : Except Err Repo :=
  match splitSlash nwo.data with
  | [o, n] =>
    if o = [] ∨ n = [] then .error (.base "MalformedSelectorError")
    else .ok ⟨String.mk o, String.mk n, dh⟩
  | _ => .error (.base "MalformedSelectorError")

end ghrepo

/-- The field set of line 104. -/
def fields : List String := ["name", "owner", "isArchived", "id"]

/-- The outcome `o` of the rest of a function, after the steps `t` made so far. -/
def Outcome.after (t : List Event) (o : Outcome) : Outcome :=
  ⟨o.err, t ++ o.trace⟩

/-- Text of the notice of lines 112-115: `"%s Repository %s is already archived\n"`. -/
def archivedNotice (env : Env) (fullName : String) : String :=
  env.WarningIcon ++ " Repository " ++ fullName ++ " is already archived\n"

/-- Text of the notice of lines 139-142: `"%s Archived repository %s\n"`. -/
def successNotice (env : Env) (fullName : String) : String :=
  env.SuccessIcon ++ " Archived repository " ++ fullName ++ "\n"

/-- Message of the prompt of line 121: `"Archive %s?"`. -/
def promptMessage (fullName : String) : String :=
  "Archive " ++ fullName ++ "?"

/-- Lines 133-145 of `archiveRun` : the mutation and the success notice. -/
def archiveTail (env : Env) (fullName : String) (repo : Repository) : Outcome :=
  match env.archiveRepo repo with
  | .error e => ⟨some (.wrap "API called failed" e), [.archiveRepo repo]⟩
  | .ok _ =>
    if env.IsStdoutTTY then
      ⟨none, [.archiveRepo repo, .Out (successNotice env fullName)]⟩
    else
      ⟨none, [.archiveRepo repo]⟩

/-- Lines 104-145 of `archiveRun` : state fetch, notice, confirmation, and then
`archiveTail`. -/
def archiveResolved (env : Env) (opts : ArchiveOptions) (toArchive : Repo) : Outcome :=
  match env.FetchRepository toArchive fields with
  | .error e => ⟨some e, [.FetchRepository toArchive fields]⟩
  | .ok repo =>
    let fullName := ghrepo.FullName toArchive
    if repo.isArchived then
      ⟨none, [.FetchRepository toArchive fields, .ErrOut (archivedNotice env fullName)]⟩
    else if opts.Confirmed then
      (archiveTail env fullName repo).after [.FetchRepository toArchive fields]
    else
      match env.SurveyAskOne (promptMessage fullName) false with
      | .error e =>
        ⟨some (.wrap "failed to prompt" e),
          [.FetchRepository toArchive fields, .SurveyAskOne (promptMessage fullName) false]⟩
      | .ok answer =>
        -- the answer is stored in opts.Confirmed
        if answer then
          (archiveTail env fullName repo).after
            [.FetchRepository toArchive fields, .SurveyAskOne (promptMessage fullName) false]
        else
          ⟨none,
            [.FetchRepository toArchive fields, .SurveyAskOne (promptMessage fullName) false]⟩

/-- Lines 99-145 of `archiveRun` : `ghrepo.FromFullName(repoSelector)` and then
`archiveResolved`. -/
def archiveSelector (env : Env) (opts : ArchiveOptions) (repoSelector : String) : Outcome :=
  match ghrepo.FromFullName env.ghHost repoSelector with
  | .error e => ⟨some (.wrap "argument error" e), []⟩
  | .ok toArchive => archiveResolved env opts toArchive

/-- Lines 83-145 of `archiveRun` : a selector without `/` gets the login of the
default host in front, and then `archiveSelector`. -/
def archiveNamed (env : Env) (opts : ArchiveOptions) (repoSelector : String) : Outcome :=
  if '/' ∈ repoSelector.data then archiveSelector env opts repoSelector
  else
    match env.Config with
    | .error e => ⟨some e, [.Config]⟩
    | .ok _ =>
      match env.DefaultHost with
      | .error e => ⟨some e, [.Config, .DefaultHost]⟩
      | .ok hostname =>
        match env.CurrentLoginName hostname with
        | .error e => ⟨some e, [.Config, .DefaultHost, .CurrentLoginName hostname]⟩
        | .ok currentUser =>
          (archiveSelector env opts (currentUser ++ "/" ++ repoSelector)).after
            [.Config, .DefaultHost, .CurrentLoginName hostname]

/-- Function `archiveRun` (lines 64-146). -/
def archiveRun (env : Env) (opts : ArchiveOptions) : Outcome :=
  match env.HttpClient with
  | .error e => ⟨some e, [.HttpClient]⟩
  | .ok _ =>
    if opts.RepoArg = "" then
      match env.BaseRepo with
      | .error e => ⟨some e, [.HttpClient, .BaseRepo]⟩
      | .ok currRepo =>
        (archiveNamed env opts (ghrepo.FullName currRepo)).after [.HttpClient, .BaseRepo]
    else
      (archiveNamed env opts opts.RepoArg).after [.HttpClient]

/-- The `RunE` closure of `NewCmdArchive` (lines 44-56).  `changed` is
`cmd.Flags().Changed("repo")` and `runF` the optional replacement of
`archiveRun` that `NewCmdArchive` receives. -/
def RunE (env : Env) (runF : Option (ArchiveOptions → Outcome)) (changed : Bool)
    (opts : ArchiveOptions) : Outcome :=
  let opts : ArchiveOptions := ⟨opts.RepoArg, changed, opts.Confirmed⟩
  if !opts.Confirmed && !env.CanPrompt && !opts.HasRepoOverride then
    ⟨some (.flag "could not prompt: confirmation with prompt or --confirm flag required"), []⟩
  else
    match runF with
    | some f => f opts
    | none => archiveRun env opts

/-- The archive mutations of a run, by argument. -/
def mutations : List Event → List Repository
  | [] => []
  | .archiveRepo r :: t => r :: mutations t
  | _ :: t => mutations t

/-- The confirm prompts of a run, by message and default. -/
def prompts : List Event → List (String × Bool)
  | [] => []
  | .SurveyAskOne m d :: t => (m, d) :: prompts t
  | _ :: t => prompts t

/-- The state fetches of a run, by reference and field set. -/
def fetches : List Event → List (Repo × List String)
  | [] => []
  | .FetchRepository r f :: t => (r, f) :: fetches t
  | _ :: t => fetches t

/-- The identity lookups of a run, by host. -/
def identityLookups : List Event → List String
  | [] => []
  | .CurrentLoginName h :: t => h :: identityLookups t
  | _ :: t => identityLookups t

/-- Number of context lookups (`BaseRepo`) of a run. -/
def contextLookups : List Event → Nat
  | [] => 0
  | .BaseRepo :: t => contextLookups t + 1
  | _ :: t => contextLookups t

/-- Number of default-host lookups of a run. -/
def hostLookups : List Event → Nat
  | [] => 0
  | .DefaultHost :: t => hostLookups t + 1
  | _ :: t => hostLookups t

/-- What a run wrote to standard output. -/
def stdout : List Event → List String
  | [] => []
  | .Out s :: t => s :: stdout t
  | _ :: t => stdout t

/-- What a run wrote to the error stream. -/
def stderr : List Event → List String
  | [] => []
  | .ErrOut s :: t => s :: stderr t
  | _ :: t => stderr t

/-- A fake environment: context bound to `octo/hello` on `ghe.example.com`,
login `octo`, the repository not archived, the user declines, on a terminal. -/
def demoEnv : Env where
  HttpClient := .ok ()
  BaseRepo := .ok ⟨"octo", "hello", "ghe.example.com"⟩
  Config := .ok ()
  DefaultHost := .ok "github.com"
  CurrentLoginName := fun _ => .ok "octo"
  FetchRepository := fun r _ => .ok ⟨"R_1", r.name, r.owner, false⟩
  SurveyAskOne := fun _ _ => .ok false
  archiveRepo := fun _ => .ok ()
  CanPrompt := true
  IsStdoutTTY := true
  WarningIcon := "!"
  SuccessIcon := "ok"
  ghHost := "github.com"



/-- The environment `demoEnv` without a terminal: it cannot prompt and standard
output is not a terminal. -/
def headlessEnv : Env :=
  { demoEnv with CanPrompt := false, IsStdoutTTY := false }

/-- The environment `demoEnv` with the repository archived already. -/
def archivedEnv : Env :=
  { demoEnv with FetchRepository := fun r _ => .ok ⟨"R_1", r.name, r.owner, true⟩ }

/-- The environment `demoEnv` with a failing HTTP client factory. -/
def brokenEnv : Env :=
  { demoEnv with HttpClient := .error (.base "no client") }

/-- A stretch of a run with no state fetch, prompt, mutation or write. -/
def Quiet (t : List Event) : Prop :=
  fetches t = [] ∧ prompts t = [] ∧ mutations t = [] ∧ stdout t = [] ∧ stderr t = []

/-- The three ways a run can end, seen from the mutation and standard output. -/
inductive Ending (env : Env) (o : Outcome) : Prop where
  | noMutation (hm : mutations o.trace = []) (hs : stdout o.trace = [])
  | failed (snap : Repository) (e : Err) (hm : mutations o.trace = [snap])
      (he : env.archiveRepo snap = .error e)
      (herr : o.err = some (.wrap "API called failed" e)) (hs : stdout o.trace = [])
  | archived (r : Repo) (snap : Repository) (hf : (r, fields) ∈ fetches o.trace)
      (hm : mutations o.trace = [snap]) (he : env.archiveRepo snap = .ok ())
      (hs : stdout o.trace =
        if env.IsStdoutTTY then [successNotice env (ghrepo.FullName r)] else [])

/-! ## Bookkeeping: the projections of a trace distribute over append -/

theorem mutations_append (a b : List Event) :
    mutations (a ++ b) = mutations a ++ mutations b := by
  induction a with
  | nil => rfl
  | cons e t ih => cases e <;> simp [mutations, ih]

theorem prompts_append (a b : List Event) :
    prompts (a ++ b) = prompts a ++ prompts b := by
  induction a with
  | nil => rfl
  | cons e t ih => cases e <;> simp [prompts, ih]

theorem fetches_append (a b : List Event) :
    fetches (a ++ b) = fetches a ++ fetches b := by
  induction a with
  | nil => rfl
  | cons e t ih => cases e <;> simp [fetches, ih]

theorem identityLookups_append (a b : List Event) :
    identityLookups (a ++ b) = identityLookups a ++ identityLookups b := by
  induction a with
  | nil => rfl
  | cons e t ih => cases e <;> simp [identityLookups, ih]

theorem stdout_append (a b : List Event) :
    stdout (a ++ b) = stdout a ++ stdout b := by
  induction a with
  | nil => rfl
  | cons e t ih => cases e <;> simp [stdout, ih]

theorem stderr_append (a b : List Event) :
    stderr (a ++ b) = stderr a ++ stderr b := by
  induction a with
  | nil => rfl
  | cons e t ih => cases e <;> simp [stderr, ih]

theorem contextLookups_append (a b : List Event) :
    contextLookups (a ++ b) = contextLookups a + contextLookups b := by
  induction a with
  | nil => simp [contextLookups]
  | cons e t ih => cases e <;> simp [contextLookups, ih]; omega

theorem hostLookups_append (a b : List Event) :
    hostLookups (a ++ b) = hostLookups a + hostLookups b := by
  induction a with
  | nil => simp [hostLookups]
  | cons e t ih => cases e <;> simp [hostLookups, ih]; omega

/-! ## The shape of a run -/

theorem after_err (t : List Event) (o : Outcome) : (o.after t).err = o.err := rfl

theorem after_trace (t : List Event) (o : Outcome) : (o.after t).trace = t ++ o.trace := rfl

theorem after_after (a b : List Event) (o : Outcome) :
    (o.after b).after a = o.after (a ++ b) := by
  simp [Outcome.after]

/-- Lines 134-136: the mutation fails. -/
theorem archiveTail_error (env : Env) (fullName : String) (repo : Repository) (e : Err)
    (hm : env.archiveRepo repo = .error e) :
    archiveTail env fullName repo =
      ⟨some (.wrap "API called failed" e), [.archiveRepo repo]⟩ := by
  simp [archiveTail, hm]

/-- Lines 138-145: the mutation succeeds. -/
theorem archiveTail_ok (env : Env) (fullName : String) (repo : Repository) (u : Unit)
    (hm : env.archiveRepo repo = .ok u) :
    archiveTail env fullName repo =
      ⟨none, if env.IsStdoutTTY then [.archiveRepo repo, .Out (successNotice env fullName)]
        else [.archiveRepo repo]⟩ := by
  simp only [archiveTail, hm]
  split <;> rfl

/-- The mutation step makes no state fetch and no prompt and writes nothing to
the error stream. -/
theorem archiveTail_trace (env : Env) (fullName : String) (repo : Repository) :
    fetches (archiveTail env fullName repo).trace = [] ∧
    prompts (archiveTail env fullName repo).trace = [] ∧
    stderr (archiveTail env fullName repo).trace = [] ∧
    mutations (archiveTail env fullName repo).trace = [repo] := by
  unfold archiveTail
  split
  · simp [fetches, prompts, stderr, mutations]
  · split <;> simp [fetches, prompts, stderr, mutations]

/-- Line 106: the state fetch fails. -/
theorem archiveResolved_fetch_error (env : Env) (opts : ArchiveOptions) (r : Repo) (e : Err)
    (hf : env.FetchRepository r fields = .error e) :
    archiveResolved env opts r = ⟨some e, [.FetchRepository r fields]⟩ := by
  simp [archiveResolved, hf]

/-- Lines 111-117: the repository is archived already. -/
theorem archiveResolved_archived (env : Env) (opts : ArchiveOptions) (r : Repo)
    (snap : Repository) (hf : env.FetchRepository r fields = .ok snap)
    (ha : snap.isArchived = true) :
    archiveResolved env opts r =
      ⟨none, [.FetchRepository r fields, .ErrOut (archivedNotice env (ghrepo.FullName r))]⟩ := by
  simp [archiveResolved, hf, ha]

/-- Lines 119, 133: confirmation was given beforehand. -/
theorem archiveResolved_confirmed (env : Env) (opts : ArchiveOptions) (r : Repo)
    (snap : Repository) (hf : env.FetchRepository r fields = .ok snap)
    (ha : snap.isArchived = false) (hc : opts.Confirmed = true) :
    archiveResolved env opts r =
      (archiveTail env (ghrepo.FullName r) snap).after [.FetchRepository r fields] := by
  simp [archiveResolved, hf, ha, hc]

/-- Lines 124-127: the prompt fails. -/
theorem archiveResolved_prompt_error (env : Env) (opts : ArchiveOptions) (r : Repo)
    (snap : Repository) (e : Err) (hf : env.FetchRepository r fields = .ok snap)
    (ha : snap.isArchived = false) (hc : opts.Confirmed = false)
    (hp : env.SurveyAskOne (promptMessage (ghrepo.FullName r)) false = .error e) :
    archiveResolved env opts r =
      ⟨some (.wrap "failed to prompt" e),
        [.FetchRepository r fields, .SurveyAskOne (promptMessage (ghrepo.FullName r)) false]⟩ := by
  simp [archiveResolved, hf, ha, hc, hp]

/-- Lines 124-131: the prompt is answered. -/
theorem archiveResolved_prompt_ok (env : Env) (opts : ArchiveOptions) (r : Repo)
    (snap : Repository) (answer : Bool) (hf : env.FetchRepository r fields = .ok snap)
    (ha : snap.isArchived = false) (hc : opts.Confirmed = false)
    (hp : env.SurveyAskOne (promptMessage (ghrepo.FullName r)) false = .ok answer) :
    archiveResolved env opts r =
      if answer then
        (archiveTail env (ghrepo.FullName r) snap).after
          [.FetchRepository r fields, .SurveyAskOne (promptMessage (ghrepo.FullName r)) false]
      else
        ⟨none,
          [.FetchRepository r fields, .SurveyAskOne (promptMessage (ghrepo.FullName r)) false]⟩ := by
  simp [archiveResolved, hf, ha, hc, hp]

/-- From the state fetch on, the only state fetch is that of the resolved reference. -/
theorem archiveResolved_fetches (env : Env) (opts : ArchiveOptions) (r : Repo) :
    fetches (archiveResolved env opts r).trace = [(r, fields)] := by
  have h := fun n repo => (archiveTail_trace env n repo).1
  cases hf : env.FetchRepository r fields with
  | error e => simp [archiveResolved_fetch_error env opts r e hf, fetches]
  | ok snap =>
    cases ha : snap.isArchived with
    | true => simp [archiveResolved_archived env opts r snap hf ha, fetches]
    | false =>
      cases hc : opts.Confirmed with
      | true =>
        simp [archiveResolved_confirmed env opts r snap hf ha hc, fetches, after_trace,
          fetches_append, h]
      | false =>
        cases hp : env.SurveyAskOne (promptMessage (ghrepo.FullName r)) false with
        | error e => simp [archiveResolved_prompt_error env opts r snap e hf ha hc hp, fetches]
        | ok answer =>
          rw [archiveResolved_prompt_ok env opts r snap answer hf ha hc hp]
          cases answer <;> simp [fetches, after_trace, fetches_append, h]

/-- Before the state fetch a run is quiet, and either it stops there or it goes on
as `archiveResolved` of some reference. -/
theorem archiveSelector_shape (env : Env) (opts : ArchiveOptions) (sel : String) :
    (Quiet (archiveSelector env opts sel).trace ∧
      ∃ e, ghrepo.FromFullName env.ghHost sel = .error e) ∨
    ∃ r, ghrepo.FromFullName env.ghHost sel = .ok r ∧
      archiveSelector env opts sel = archiveResolved env opts r := by
  unfold archiveSelector
  split
  · left; exact ⟨by simp [Quiet, fetches, prompts, mutations, stdout, stderr], _, by assumption⟩
  · right; exact ⟨_, by assumption, rfl⟩

theorem archiveNamed_shape (env : Env) (opts : ArchiveOptions) (sel : String) :
    Quiet (archiveNamed env opts sel).trace ∨
    ∃ pre r, Quiet pre ∧ archiveNamed env opts sel = (archiveResolved env opts r).after pre := by
  unfold archiveNamed
  split
  · rcases archiveSelector_shape env opts sel with h | ⟨r, _, h⟩
    · exact .inl h.1
    · exact .inr ⟨[], r, by simp [Quiet, fetches, prompts, mutations, stdout, stderr],
        by simp [h, Outcome.after]⟩
  · repeat' split
    all_goals try (left; simp [Quiet, fetches, prompts, mutations, stdout, stderr]; done)
    rename_i hostname _ currentUser _
    rcases archiveSelector_shape env opts (currentUser ++ "/" ++ sel) with h | ⟨r, _, h⟩
    · left
      have := h.1
      simp_all [Quiet, after_trace, fetches, prompts, mutations, stdout, stderr]
    · right
      refine ⟨_, r, ?_, by rw [h]⟩
      simp [Quiet, fetches, prompts, mutations, stdout, stderr]

theorem archiveRun_shape (env : Env) (opts : ArchiveOptions) :
    Quiet (archiveRun env opts).trace ∨
    ∃ pre r, Quiet pre ∧ archiveRun env opts = (archiveResolved env opts r).after pre := by
  have quiet_cons : ∀ (a b : List Event), Quiet a → Quiet b → Quiet (a ++ b) := by
    intro a b ha hb
    simp_all [Quiet, fetches_append, prompts_append, mutations_append, stdout_append,
      stderr_append]
  have q1 : Quiet [Event.HttpClient] := by
    simp [Quiet, fetches, prompts, mutations, stdout, stderr]
  have q2 : Quiet [Event.HttpClient, Event.BaseRepo] := by
    simp [Quiet, fetches, prompts, mutations, stdout, stderr]
  unfold archiveRun
  split
  · exact .inl q1
  · split
    · split
      · exact .inl q2
      · rename_i currRepo _
        rcases archiveNamed_shape env opts (ghrepo.FullName currRepo) with h | ⟨pre, r, hq, h⟩
        · exact .inl (quiet_cons _ _ q2 h)
        · exact .inr ⟨_, r, quiet_cons _ _ q2 hq, by rw [h, after_after]⟩
    · rcases archiveNamed_shape env opts opts.RepoArg with h | ⟨pre, r, hq, h⟩
      · exact .inl (quiet_cons _ _ q1 h)
      · exact .inr ⟨_, r, quiet_cons _ _ q1 hq, by rw [h, after_after]⟩

/-- A run that made the state fetch of `r` is a quiet stretch followed by
`archiveResolved` of `r`, and the fetch asked for `fields`. -/
theorem archiveRun_of_fetch (env : Env) (opts : ArchiveOptions) (r : Repo) (f : List String)
    (h : (r, f) ∈ fetches (archiveRun env opts).trace) :
    f = fields ∧
    ∃ pre, Quiet pre ∧ archiveRun env opts = (archiveResolved env opts r).after pre := by
  rcases archiveRun_shape env opts with hq | ⟨pre, r2, hq, heq⟩
  · rw [hq.1] at h; simp at h
  · rw [heq, after_trace, fetches_append, hq.1, archiveResolved_fetches] at h
    simp at h
    obtain ⟨rfl, rfl⟩ := h
    exact ⟨rfl, pre, hq, heq⟩

/-- The flag `HasRepoOverride` is not read by `archiveRun`. -/
theorem archiveRun_override (env : Env) (opts : ArchiveOptions) (b : Bool) :
    archiveRun env ⟨opts.RepoArg, b, opts.Confirmed⟩ = archiveRun env opts := rfl

/-- With confirmation given beforehand, `archiveResolved` does not prompt. -/
theorem archiveResolved_prompts_confirmed (env : Env) (opts : ArchiveOptions) (r : Repo)
    (hc : opts.Confirmed = true) : prompts (archiveResolved env opts r).trace = [] := by
  have h := fun n repo => (archiveTail_trace env n repo).2.1
  cases hf : env.FetchRepository r fields with
  | error e => simp [archiveResolved_fetch_error env opts r e hf, prompts]
  | ok snap =>
    cases ha : snap.isArchived with
    | true => simp [archiveResolved_archived env opts r snap hf ha, prompts]
    | false =>
      simp [archiveResolved_confirmed env opts r snap hf ha hc, prompts, after_trace,
        prompts_append, h]

/-- With confirmation given beforehand, a run does not prompt. -/
theorem archiveRun_prompts_confirmed (env : Env) (opts : ArchiveOptions)
    (hc : opts.Confirmed = true) : prompts (archiveRun env opts).trace = [] := by
  rcases archiveRun_shape env opts with hq | ⟨pre, r, hq, heq⟩
  · exact hq.2.1
  · rw [heq, after_trace, prompts_append, hq.2.1, archiveResolved_prompts_confirmed env opts r hc]
    rfl

/-! ## Selectors -/

theorem splitSlash_of_not_mem (l : List Char) (h : '/' ∉ l) : ghrepo.splitSlash l = [l] := by
  induction l with
  | nil => rfl
  | cons c cs ih =>
    simp only [List.mem_cons, not_or] at h
    have hc : c ≠ '/' := fun e => h.1 e.symm
    simp [ghrepo.splitSlash, hc, ih h.2]

theorem splitSlash_append (a b : List Char) (h : '/' ∉ a) :
    ghrepo.splitSlash (a ++ '/' :: b) = a :: ghrepo.splitSlash b := by
  induction a with
  | nil => simp [ghrepo.splitSlash]
  | cons c cs ih =>
    simp only [List.mem_cons, not_or] at h
    have hc : c ≠ '/' := fun e => h.1 e.symm
    simp [ghrepo.splitSlash, hc, ih h.2]

theorem splitSlash_ne_nil (l : List Char) : ghrepo.splitSlash l ≠ [] := by
  cases l with
  | nil => simp [ghrepo.splitSlash]
  | cons c cs =>
    unfold ghrepo.splitSlash
    split
    · simp
    · split <;> simp

/-- Splitting distributes over a separator. -/
theorem splitSlash_sep (a b : List Char) :
    ghrepo.splitSlash (a ++ '/' :: b) = ghrepo.splitSlash a ++ ghrepo.splitSlash b := by
  induction a with
  | nil => simp [ghrepo.splitSlash]
  | cons c cs ih =>
    by_cases hc : c = '/'
    · simp [ghrepo.splitSlash, hc, ih]
    · obtain ⟨p, ps, hp⟩ := List.exists_cons_of_ne_nil (splitSlash_ne_nil cs)
      simp [ghrepo.splitSlash, hc, ih, hp]

/-- A string with one component is that component. -/
theorem splitSlash_single (l o : List Char) (h : ghrepo.splitSlash l = [o]) : o = l := by
  induction l generalizing o with
  | nil => simpa [ghrepo.splitSlash] using h.symm
  | cons c cs ih =>
    by_cases hc : c = '/'
    · simp [ghrepo.splitSlash, hc, splitSlash_ne_nil] at h
    · obtain ⟨p, ps, hp⟩ := List.exists_cons_of_ne_nil (splitSlash_ne_nil cs)
      simp only [ghrepo.splitSlash, hc, if_false, hp, List.cons.injEq] at h
      obtain ⟨h1, h2⟩ := h
      subst h2
      rw [← h1, ih p hp]

/-- A reference parsed from `u/s`, where `s` has no separator, has owner `u` and
name `s`. -/
theorem fromFullName_bare (dh u s : String) (r : Repo) (hs : '/' ∉ s.data)
    (hp : ghrepo.FromFullName dh (u ++ "/" ++ s) = .ok r) : r = ⟨u, s, dh⟩ := by
  have e : (u ++ "/" ++ s).data = u.data ++ '/' :: s.data := by simp
  unfold ghrepo.FromFullName at hp
  rw [e, splitSlash_sep, splitSlash_of_not_mem _ hs] at hp
  obtain ⟨p, ps, hu⟩ := List.exists_cons_of_ne_nil (splitSlash_ne_nil u.data)
  rw [hu] at hp
  cases ps with
  | cons q qs => simp at hp
  | nil =>
    have hpu := splitSlash_single _ _ hu
    subst hpu
    simp only [List.singleton_append] at hp
    split at hp
    · cases hp
    · cases hp
      rfl

theorem data_ne_nil (s : String) (h : s ≠ "") : s.data ≠ [] := by
  intro hd
  apply h
  cases s
  simp_all

/-- The string `owner/name` contains the separator. -/
theorem fullName_has_slash (r : Repo) : '/' ∈ (ghrepo.FullName r).data := by
  simp [ghrepo.FullName]

/-- The string `owner/name`, with owner and name non-empty and without `/`, parses
to the reference with that owner and that name. -/
theorem fromFullName_pair (dh owner name : String) (h1 : owner ≠ "") (h2 : name ≠ "")
    (h3 : '/' ∉ owner.data) (h4 : '/' ∉ name.data) :
    ghrepo.FromFullName dh (owner ++ "/" ++ name) = .ok ⟨owner, name, dh⟩ := by
  have e : (owner ++ "/" ++ name).data = owner.data ++ '/' :: name.data := by simp
  unfold ghrepo.FromFullName
  rw [e, splitSlash_append _ _ h3, splitSlash_of_not_mem _ h4]
  simp [data_ne_nil owner h1, data_ne_nil name h2]

/-! ## Lookups -/

theorem archiveTail_lookups (env : Env) (fullName : String) (repo : Repository) :
    contextLookups (archiveTail env fullName repo).trace = 0 ∧
    hostLookups (archiveTail env fullName repo).trace = 0 ∧
    identityLookups (archiveTail env fullName repo).trace = [] := by
  unfold archiveTail
  split
  · simp [contextLookups, hostLookups, identityLookups]
  · split <;> simp [contextLookups, hostLookups, identityLookups]

/-- From the state fetch on, a run makes no context, default-host or identity lookup. -/
theorem archiveResolved_lookups (env : Env) (opts : ArchiveOptions) (r : Repo) :
    contextLookups (archiveResolved env opts r).trace = 0 ∧
    hostLookups (archiveResolved env opts r).trace = 0 ∧
    identityLookups (archiveResolved env opts r).trace = [] := by
  obtain ⟨h1, h2, h3⟩ :
      (∀ n repo, contextLookups (archiveTail env n repo).trace = 0) ∧
      (∀ n repo, hostLookups (archiveTail env n repo).trace = 0) ∧
      (∀ n repo, identityLookups (archiveTail env n repo).trace = []) :=
    ⟨fun n repo => (archiveTail_lookups env n repo).1,
     fun n repo => (archiveTail_lookups env n repo).2.1,
     fun n repo => (archiveTail_lookups env n repo).2.2⟩
  cases hf : env.FetchRepository r fields with
  | error e =>
    simp [archiveResolved_fetch_error env opts r e hf, contextLookups, hostLookups,
      identityLookups]
  | ok snap =>
    cases ha : snap.isArchived with
    | true =>
      simp [archiveResolved_archived env opts r snap hf ha, contextLookups, hostLookups,
        identityLookups]
    | false =>
      cases hc : opts.Confirmed with
      | true =>
        simp [archiveResolved_confirmed env opts r snap hf ha hc, contextLookups, hostLookups,
          identityLookups, after_trace, contextLookups_append, hostLookups_append,
          identityLookups_append, h1, h2, h3]
      | false =>
        cases hp : env.SurveyAskOne (promptMessage (ghrepo.FullName r)) false with
        | error e =>
          simp [archiveResolved_prompt_error env opts r snap e hf ha hc hp, contextLookups,
            hostLookups, identityLookups]
        | ok answer =>
          rw [archiveResolved_prompt_ok env opts r snap answer hf ha hc hp]
          cases answer <;>
            simp [contextLookups, hostLookups, identityLookups, after_trace,
              contextLookups_append, hostLookups_append, identityLookups_append, h1, h2, h3]

/-- Line 99: the selector does not parse. -/
theorem archiveSelector_error (env : Env) (opts : ArchiveOptions) (sel : String) (e : Err)
    (hp : ghrepo.FromFullName env.ghHost sel = .error e) :
    archiveSelector env opts sel = ⟨some (.wrap "argument error" e), []⟩ := by
  simp [archiveSelector, hp]

/-- Line 99: the selector parses. -/
theorem archiveSelector_ok (env : Env) (opts : ArchiveOptions) (sel : String) (r : Repo)
    (hp : ghrepo.FromFullName env.ghHost sel = .ok r) :
    archiveSelector env opts sel = archiveResolved env opts r := by
  simp [archiveSelector, hp]

theorem archiveSelector_lookups (env : Env) (opts : ArchiveOptions) (sel : String) :
    contextLookups (archiveSelector env opts sel).trace = 0 ∧
    hostLookups (archiveSelector env opts sel).trace = 0 ∧
    identityLookups (archiveSelector env opts sel).trace = [] := by
  cases hp : ghrepo.FromFullName env.ghHost sel with
  | error e =>
    simp [archiveSelector_error env opts sel e hp, contextLookups, hostLookups, identityLookups]
  | ok r =>
    rw [archiveSelector_ok env opts sel r hp]
    exact archiveResolved_lookups env opts r

/-- What `archiveSelector` fetches is the reference that the selector parses to. -/
theorem archiveSelector_fetches (env : Env) (opts : ArchiveOptions) (sel : String) :
    fetches (archiveSelector env opts sel).trace =
      match ghrepo.FromFullName env.ghHost sel with
      | .ok r => [(r, fields)]
      | .error _ => [] := by
  cases hp : ghrepo.FromFullName env.ghHost sel with
  | error e => simp [archiveSelector_error env opts sel e hp, fetches]
  | ok r => simp [archiveSelector_ok env opts sel r hp, archiveResolved_fetches]

/-- Line 83: a selector with a separator is taken as it is. -/
theorem archiveNamed_qualified (env : Env) (opts : ArchiveOptions) (sel : String)
    (hs : '/' ∈ sel.data) : archiveNamed env opts sel = archiveSelector env opts sel := by
  simp [archiveNamed, hs]

/-- Lines 83-98: a selector without separator, when the three lookups succeed. -/
theorem archiveNamed_bare (env : Env) (opts : ArchiveOptions) (sel h u : String) (c : Unit)
    (hs : '/' ∉ sel.data) (hc : env.Config = .ok c) (hh : env.DefaultHost = .ok h)
    (hu : env.CurrentLoginName h = .ok u) :
    archiveNamed env opts sel =
      (archiveSelector env opts (u ++ "/" ++ sel)).after
        [.Config, .DefaultHost, .CurrentLoginName h] := by
  simp [archiveNamed, hs, hc, hh, hu]

/-- Line 67: the HTTP client factory fails. -/
theorem archiveRun_client_error (env : Env) (opts : ArchiveOptions) (e : Err)
    (hh : env.HttpClient = .error e) : archiveRun env opts = ⟨some e, [.HttpClient]⟩ := by
  simp [archiveRun, hh]

/-- Line 74: a non-empty selector is used as given. -/
theorem archiveRun_selector (env : Env) (opts : ArchiveOptions) (c : Unit)
    (hh : env.HttpClient = .ok c) (hne : opts.RepoArg ≠ "") :
    archiveRun env opts = (archiveNamed env opts opts.RepoArg).after [.HttpClient] := by
  simp [archiveRun, hh, hne]

/-- Line 77: the selector is empty and the context lookup fails. -/
theorem archiveRun_context_error (env : Env) (opts : ArchiveOptions) (c : Unit) (e : Err)
    (hh : env.HttpClient = .ok c) (hsel : opts.RepoArg = "") (hb : env.BaseRepo = .error e) :
    archiveRun env opts = ⟨some e, [.HttpClient, .BaseRepo]⟩ := by
  simp [archiveRun, hh, hsel, hb]

/-- Line 80: the selector is empty and the context lookup returns `r`. -/
theorem archiveRun_context (env : Env) (opts : ArchiveOptions) (c : Unit) (r : Repo)
    (hh : env.HttpClient = .ok c) (hsel : opts.RepoArg = "") (hb : env.BaseRepo = .ok r) :
    archiveRun env opts =
      (archiveSelector env opts (ghrepo.FullName r)).after [.HttpClient, .BaseRepo] := by
  simp [archiveRun, hh, hsel, hb, archiveNamed_qualified env opts _ (fullName_has_slash r)]

/-! ## Mutation and standard output -/

/-- What `archiveTail` does: one mutation, and then either the wrapped error and
no output, or no error and the success notice on a terminal only. -/
theorem archiveTail_result (env : Env) (fullName : String) (repo : Repository) :
    mutations (archiveTail env fullName repo).trace = [repo] ∧
    ((∃ e, env.archiveRepo repo = .error e ∧
        (archiveTail env fullName repo).err = some (.wrap "API called failed" e) ∧
        stdout (archiveTail env fullName repo).trace = []) ∨
     (env.archiveRepo repo = .ok () ∧
        stdout (archiveTail env fullName repo).trace =
          if env.IsStdoutTTY then [successNotice env fullName] else [])) := by
  refine ⟨(archiveTail_trace env fullName repo).2.2.2, ?_⟩
  cases hm : env.archiveRepo repo with
  | error e =>
    left
    exact ⟨e, rfl, by simp [archiveTail_error env fullName repo e hm, mutations, stdout]⟩
  | ok u =>
    right
    refine ⟨rfl, ?_⟩
    rw [archiveTail_ok env fullName repo u hm]
    cases env.IsStdoutTTY <;> simp [stdout]

theorem archiveResolved_ending (env : Env) (opts : ArchiveOptions) (r : Repo) :
    Ending env (archiveResolved env opts r) := by
  have tail : ∀ (t : List Event) (snap : Repository),
      (r, fields) ∈ fetches t → mutations t = [] → stdout t = [] →
      Ending env ((archiveTail env (ghrepo.FullName r) snap).after t) := by
    intro t snap hf hm hs
    obtain ⟨m, h | h⟩ := archiveTail_result env (ghrepo.FullName r) snap
    · obtain ⟨e, he, herr, hso⟩ := h
      exact .failed snap e (by simp [after_trace, mutations_append, hm, m]) he
        (by rw [after_err, herr]) (by simp [after_trace, stdout_append, hs, hso])
    · exact .archived r snap (by simp [after_trace, fetches_append, hf])
        (by simp [after_trace, mutations_append, hm, m]) h.1
        (by simp [after_trace, stdout_append, hs, h.2])
  cases hf : env.FetchRepository r fields with
  | error e =>
    rw [archiveResolved_fetch_error env opts r e hf]
    exact .noMutation (by simp [mutations]) (by simp [stdout])
  | ok snap =>
    cases ha : snap.isArchived with
    | true =>
      rw [archiveResolved_archived env opts r snap hf ha]
      exact .noMutation (by simp [mutations]) (by simp [stdout])
    | false =>
      cases hc : opts.Confirmed with
      | true =>
        rw [archiveResolved_confirmed env opts r snap hf ha hc]
        exact tail _ snap (by simp [fetches]) (by simp [mutations]) (by simp [stdout])
      | false =>
        cases hp : env.SurveyAskOne (promptMessage (ghrepo.FullName r)) false with
        | error e =>
          rw [archiveResolved_prompt_error env opts r snap e hf ha hc hp]
          exact .noMutation (by simp [mutations]) (by simp [stdout])
        | ok answer =>
          rw [archiveResolved_prompt_ok env opts r snap answer hf ha hc hp]
          cases answer with
          | true =>
            exact tail _ snap (by simp [fetches]) (by simp [mutations]) (by simp [stdout])
          | false => exact .noMutation (by simp [mutations]) (by simp [stdout])

theorem archiveRun_ending (env : Env) (opts : ArchiveOptions) :
    Ending env (archiveRun env opts) := by
  rcases archiveRun_shape env opts with hq | ⟨pre, r, hq, heq⟩
  · exact .noMutation hq.2.2.1 hq.2.2.2.1
  · obtain ⟨_, _, q3, q4, _⟩ := hq
    rw [heq]
    cases archiveResolved_ending env opts r with
    | noMutation hm hs =>
      exact .noMutation (by simp [after_trace, mutations_append, q3, hm])
        (by simp [after_trace, stdout_append, q4, hs])
    | failed snap e hm he herr hs =>
      exact .failed snap e (by simp [after_trace, mutations_append, q3, hm]) he
        (by rw [after_err, herr]) (by simp [after_trace, stdout_append, q4, hs])
    | archived r2 snap hf hm he hs =>
      exact .archived r2 snap (by simp [after_trace, fetches_append, hf])
        (by simp [after_trace, mutations_append, q3, hm]) he
        (by simp [after_trace, stdout_append, q4, hs])

/-! ## The claims -/

/-- C1: when confirmation was not given beforehand, the context cannot prompt and
no repository override flag was supplied, the command fails with the error
"could not prompt: confirmation with prompt or --confirm flag required", and it
has called no collaborator and written nothing (the trace of the run is empty),
whatever `runF` is. -/
theorem C1_guard_fails_before_any_call (env : Env)
    (runF : Option (ArchiveOptions → Outcome)) (changed : Bool) (opts : ArchiveOptions)
    (hc : opts.Confirmed = false) (hp : env.CanPrompt = false) (ho : changed = false) :
    RunE env runF changed opts =
      ⟨some (.flag "could not prompt: confirmation with prompt or --confirm flag required"),
        []⟩ := by
  simp [RunE, hc, hp, ho]

theorem C1_guard_witness :
    RunE headlessEnv none false ⟨"", false, false⟩ =
      ⟨some (.flag "could not prompt: confirmation with prompt or --confirm flag required"),
        []⟩ :=
  C1_guard_fails_before_any_call headlessEnv none false ⟨"", false, false⟩ rfl rfl rfl

/-- C2: when a run makes the state fetch for the resolved reference `r` and the
fetch returns a snapshot with `isArchived = true`, the run returns no error, makes
no archive mutation and no prompt, writes exactly the one notice
"<icon> Repository <owner/name> is already archived" to the error stream and
writes nothing to standard output, whatever `Confirmed`, `HasRepoOverride` and the
terminal attachment are. -/
theorem C2_already_archived (env : Env) (opts : ArchiveOptions) (r : Repo)
    (snap : Repository)
    (hcall : (r, fields) ∈ fetches (archiveRun env opts).trace)
    (hf : env.FetchRepository r fields = .ok snap)
    (ha : snap.isArchived = true) :
    (archiveRun env opts).err = none ∧
    mutations (archiveRun env opts).trace = [] ∧
    prompts (archiveRun env opts).trace = [] ∧
    stderr (archiveRun env opts).trace =
      [env.WarningIcon ++ " Repository " ++ ghrepo.FullName r ++ " is already archived\n"] ∧
    stdout (archiveRun env opts).trace = [] := by
  obtain ⟨_, pre, hq, heq⟩ := archiveRun_of_fetch env opts r fields hcall
  obtain ⟨_, hq2, hq3, hq4, hq5⟩ := hq
  rw [heq, archiveResolved_archived env opts r snap hf ha]
  simp [Outcome.after, mutations_append, prompts_append, stderr_append, stdout_append,
    hq2, hq3, hq4, hq5, mutations, prompts, stderr, stdout, archivedNotice]

theorem C2_already_archived_witness :
    (archiveRun archivedEnv ⟨"", false, false⟩).err = none ∧
    mutations (archiveRun archivedEnv ⟨"", false, false⟩).trace = [] ∧
    prompts (archiveRun archivedEnv ⟨"", false, false⟩).trace = [] ∧
    stderr (archiveRun archivedEnv ⟨"", false, false⟩).trace =
      ["!" ++ " Repository " ++ "octo/hello" ++ " is already archived\n"] ∧
    stdout (archiveRun archivedEnv ⟨"", false, false⟩).trace = [] :=
  C2_already_archived archivedEnv ⟨"", false, false⟩ ⟨"octo", "hello", "github.com"⟩
    ⟨"R_1", "hello", "octo", true⟩ (by decide) rfl rfl

/-- C3: with confirmation given beforehand, when a run makes the state fetch for
the resolved reference and the fetch returns a snapshot with `isArchived = false`,
the run makes no prompt and exactly one archive mutation, whose argument is the
fetched snapshot; when that mutation succeeds the run returns no error.  The
command runs `archiveRun` in this case whatever `CanPrompt` and the repository
override flag are, so all of this holds for the command too. -/
theorem C3_preauthorized_archives_once (env : Env) (opts : ArchiveOptions) (changed : Bool)
    (r : Repo) (snap : Repository)
    (hc : opts.Confirmed = true)
    (hcall : (r, fields) ∈ fetches (archiveRun env opts).trace)
    (hf : env.FetchRepository r fields = .ok snap)
    (ha : snap.isArchived = false) :
    prompts (archiveRun env opts).trace = [] ∧
    mutations (archiveRun env opts).trace = [snap] ∧
    (env.archiveRepo snap = .ok () → (archiveRun env opts).err = none) ∧
    RunE env none changed opts = archiveRun env opts := by
  obtain ⟨_, pre, hq, heq⟩ := archiveRun_of_fetch env opts r fields hcall
  obtain ⟨_, _, hq3, _, _⟩ := hq
  refine ⟨archiveRun_prompts_confirmed env opts hc, ?_, ?_, ?_⟩
  · rw [heq, archiveResolved_confirmed env opts r snap hf ha hc]
    simp [after_trace, mutations_append, hq3, mutations,
      (archiveTail_trace env (ghrepo.FullName r) snap).2.2.2]
  · intro hm
    rw [heq, archiveResolved_confirmed env opts r snap hf ha hc]
    rw [after_err, archiveTail_ok env _ snap () hm]
    rfl
  · have h := archiveRun_override env opts changed
    rw [hc] at h
    simp [RunE, hc, h]

theorem C3_preauthorized_witness :
    headlessEnv.CanPrompt = false ∧
    prompts (archiveRun headlessEnv ⟨"octo/hello", false, true⟩).trace = [] ∧
    mutations (archiveRun headlessEnv ⟨"octo/hello", false, true⟩).trace =
      [⟨"R_1", "hello", "octo", false⟩] ∧
    (headlessEnv.archiveRepo ⟨"R_1", "hello", "octo", false⟩ = .ok () →
      (archiveRun headlessEnv ⟨"octo/hello", false, true⟩).err = none) ∧
    RunE headlessEnv none false ⟨"octo/hello", false, true⟩ =
      archiveRun headlessEnv ⟨"octo/hello", false, true⟩ :=
  ⟨rfl, C3_preauthorized_archives_once headlessEnv ⟨"octo/hello", false, true⟩ false
    ⟨"octo", "hello", "github.com"⟩ ⟨"R_1", "hello", "octo", false⟩ rfl (by decide) rfl rfl⟩

/-- C4: without confirmation given beforehand, when a run makes the state fetch
for the resolved reference, the fetch returns a snapshot with
`isArchived = false` and the confirm prompt returns the answer `false` without
error, the run returns no error, makes no archive mutation and writes nothing to
standard output or to the error stream. -/
theorem C4_declined_is_silent (env : Env) (opts : ArchiveOptions) (r : Repo)
    (snap : Repository)
    (hc : opts.Confirmed = false)
    (hcall : (r, fields) ∈ fetches (archiveRun env opts).trace)
    (hf : env.FetchRepository r fields = .ok snap)
    (ha : snap.isArchived = false)
    (hp : env.SurveyAskOne ("Archive " ++ ghrepo.FullName r ++ "?") false = .ok false) :
    (archiveRun env opts).err = none ∧
    mutations (archiveRun env opts).trace = [] ∧
    stdout (archiveRun env opts).trace = [] ∧
    stderr (archiveRun env opts).trace = [] := by
  obtain ⟨_, pre, hq, heq⟩ := archiveRun_of_fetch env opts r fields hcall
  obtain ⟨_, _, hq3, hq4, hq5⟩ := hq
  rw [heq, archiveResolved_prompt_ok env opts r snap false hf ha hc hp]
  simp [Outcome.after, mutations_append, stderr_append, stdout_append,
    hq3, hq4, hq5, mutations, stderr, stdout]

theorem C4_declined_witness :
    (archiveRun demoEnv ⟨"hello", false, false⟩).err = none ∧
    mutations (archiveRun demoEnv ⟨"hello", false, false⟩).trace = [] ∧
    stdout (archiveRun demoEnv ⟨"hello", false, false⟩).trace = [] ∧
    stderr (archiveRun demoEnv ⟨"hello", false, false⟩).trace = [] :=
  C4_declined_is_silent demoEnv ⟨"hello", false, false⟩ ⟨"octo", "hello", "github.com"⟩
    ⟨"R_1", "hello", "octo", false⟩ rfl (by decide) rfl rfl rfl

/-- C5, as stated, fails: the selector `octo/` is non-empty and contains the
separator, but it does not resolve; the run returns an argument error and makes no
state fetch. -/
theorem C5_counterexample :
    "octo/" ≠ "" ∧ '/' ∈ "octo/".data ∧
    archiveRun demoEnv ⟨"octo/", false, true⟩ =
      ⟨some (.wrap "argument error" (.base "MalformedSelectorError")), [.HttpClient]⟩ ∧
    fetches (archiveRun demoEnv ⟨"octo/", false, true⟩).trace = [] := by
  decide

/-- C5, amended: for every selector `owner/name` whose owner and name are
non-empty and contain no `/`, the run makes no context lookup, no default-host
lookup and no identity lookup, the selector resolves to the reference with that
owner and name (it is the reference passed to the state fetch once the HTTP client
is built), and the display form `owner/name` of that reference is the selector
verbatim. -/
theorem C5_qualified_selector_verbatim (env : Env) (opts : ArchiveOptions)
    (owner name : String)
    (h1 : owner ≠ "") (h2 : name ≠ "") (h3 : '/' ∉ owner.data) (h4 : '/' ∉ name.data)
    (hsel : opts.RepoArg = owner ++ "/" ++ name) :
    contextLookups (archiveRun env opts).trace = 0 ∧
    hostLookups (archiveRun env opts).trace = 0 ∧
    identityLookups (archiveRun env opts).trace = [] ∧
    ghrepo.FromFullName env.ghHost opts.RepoArg = .ok ⟨owner, name, env.ghHost⟩ ∧
    (env.HttpClient = .ok () →
      fetches (archiveRun env opts).trace = [(⟨owner, name, env.ghHost⟩, fields)]) ∧
    ghrepo.FullName ⟨owner, name, env.ghHost⟩ = opts.RepoArg := by
  have hp := fromFullName_pair env.ghHost owner name h1 h2 h3 h4
  have hs : '/' ∈ opts.RepoArg.data := by simp [hsel]
  have hne : opts.RepoArg ≠ "" := by
    intro h0
    rw [h0] at hs
    simp at hs
  rw [← hsel] at hp
  obtain ⟨l1, l2, l3⟩ := archiveResolved_lookups env opts ⟨owner, name, env.ghHost⟩
  have hf := archiveResolved_fetches env opts ⟨owner, name, env.ghHost⟩
  have hn : ghrepo.FullName ⟨owner, name, env.ghHost⟩ = opts.RepoArg := by
    rw [hsel]; rfl
  refine ⟨?_, ?_, ?_, hp, ?_, hn⟩
  all_goals cases hh : env.HttpClient with
    | error e =>
      simp [archiveRun_client_error env opts e hh, contextLookups, hostLookups,
        identityLookups]
    | ok c =>
      rw [archiveRun_selector env opts c hh hne, archiveNamed_qualified env opts _ hs,
        archiveSelector_ok env opts _ _ hp]
      simp [after_trace, contextLookups, hostLookups, identityLookups, fetches, l1, l2, l3, hf,
        contextLookups_append, hostLookups_append, identityLookups_append, fetches_append]

theorem C5_qualified_selector_witness :
    contextLookups (archiveRun demoEnv ⟨"octo/hello", false, true⟩).trace = 0 ∧
    hostLookups (archiveRun demoEnv ⟨"octo/hello", false, true⟩).trace = 0 ∧
    identityLookups (archiveRun demoEnv ⟨"octo/hello", false, true⟩).trace = [] ∧
    ghrepo.FromFullName "github.com" "octo/hello" = .ok ⟨"octo", "hello", "github.com"⟩ ∧
    (demoEnv.HttpClient = .ok () →
      fetches (archiveRun demoEnv ⟨"octo/hello", false, true⟩).trace =
        [(⟨"octo", "hello", "github.com"⟩, fields)]) ∧
    ghrepo.FullName ⟨"octo", "hello", "github.com"⟩ = "octo/hello" :=
  C5_qualified_selector_verbatim demoEnv ⟨"octo/hello", false, true⟩ "octo" "hello"
    (by decide) (by decide) (by decide) (by decide) (by decide)

/-- C6: for every non-empty selector `s` without `/`, when the run makes the
default-host lookup and it returns host `h`, and the identity lookup for `h`
returns login `u`, then identity lookup is called exactly once and with host `h`,
context lookup is never called, and the reference passed to the state fetch is the
one parsed from the string `u ++ "/" ++ s` (no state fetch is made when that string
does not parse); every reference passed to the state fetch has owner `u` and
name `s`. -/
theorem C6_bare_selector_uses_identity (env : Env) (opts : ArchiveOptions) (h u : String)
    (hne : opts.RepoArg ≠ "") (hbare : '/' ∉ opts.RepoArg.data)
    (hcall : Event.DefaultHost ∈ (archiveRun env opts).trace)
    (hh : env.DefaultHost = .ok h) (hu : env.CurrentLoginName h = .ok u) :
    identityLookups (archiveRun env opts).trace = [h] ∧
    contextLookups (archiveRun env opts).trace = 0 ∧
    fetches (archiveRun env opts).trace =
      (match ghrepo.FromFullName env.ghHost (u ++ "/" ++ opts.RepoArg) with
       | .ok r => [(r, fields)]
       | .error _ => []) ∧
    (∀ r f, (r, f) ∈ fetches (archiveRun env opts).trace →
      r.owner = u ∧ r.name = opts.RepoArg) := by
  obtain ⟨l1, _, l3⟩ := archiveSelector_lookups env opts (u ++ "/" ++ opts.RepoArg)
  have hf := archiveSelector_fetches env opts (u ++ "/" ++ opts.RepoArg)
  have key : archiveRun env opts =
      (archiveSelector env opts (u ++ "/" ++ opts.RepoArg)).after
        [.HttpClient, .Config, .DefaultHost, .CurrentLoginName h] := by
    cases hc : env.HttpClient with
    | error e => simp [archiveRun_client_error env opts e hc] at hcall
    | ok c =>
      rw [archiveRun_selector env opts c hc hne] at hcall ⊢
      cases hg : env.Config with
      | error e => simp [archiveNamed, hbare, hg, after_trace] at hcall
      | ok g =>
        rw [archiveNamed_bare env opts _ h u g hbare hg hh hu, after_after]
        rfl
  have hfe : fetches (archiveRun env opts).trace =
      (match ghrepo.FromFullName env.ghHost (u ++ "/" ++ opts.RepoArg) with
       | .ok r => [(r, fields)]
       | .error _ => []) := by
    simp [key, after_trace, fetches_append, fetches, hf]
  refine ⟨?_, ?_, hfe, ?_⟩
  · simp [key, after_trace, identityLookups_append, identityLookups, l3]
  · simp [key, after_trace, contextLookups_append, contextLookups, l1]
  · intro r f hm
    rw [hfe] at hm
    cases hp : ghrepo.FromFullName env.ghHost (u ++ "/" ++ opts.RepoArg) with
    | error e => simp [hp] at hm
    | ok r2 =>
      simp only [hp, List.mem_singleton, Prod.mk.injEq] at hm
      rw [hm.1, fromFullName_bare env.ghHost u opts.RepoArg r2 hbare hp]
      exact ⟨rfl, rfl⟩

theorem C6_bare_selector_witness :
    identityLookups (archiveRun demoEnv ⟨"hello", false, false⟩).trace = ["github.com"] ∧
    contextLookups (archiveRun demoEnv ⟨"hello", false, false⟩).trace = 0 ∧
    fetches (archiveRun demoEnv ⟨"hello", false, false⟩).trace =
      (match ghrepo.FromFullName "github.com" ("octo" ++ "/" ++ "hello") with
       | .ok r => [(r, fields)]
       | .error _ => []) ∧
    (∀ r f, (r, f) ∈ fetches (archiveRun demoEnv ⟨"hello", false, false⟩).trace →
      r.owner = "octo" ∧ r.name = "hello") :=
  C6_bare_selector_uses_identity demoEnv ⟨"hello", false, false⟩ "github.com" "octo"
    (by decide) (by decide) (by decide) rfl rfl

/-- C7, as stated, fails: with an empty selector and an HTTP client factory that
returns an error, the run ends before the context lookup, which is made zero
times. -/
theorem C7_counterexample :
    (⟨"", false, false⟩ : ArchiveOptions).RepoArg = "" ∧
    archiveRun brokenEnv ⟨"", false, false⟩ = ⟨some (.base "no client"), [.HttpClient]⟩ ∧
    contextLookups (archiveRun brokenEnv ⟨"", false, false⟩).trace = 0 := by
  decide

/-- C7, amended: for every request with an empty selector the run never makes the
default-host lookup or the identity lookup, whatever reference the context lookup
returns, and it makes the context lookup exactly once when the HTTP client is
built. -/
theorem C7_empty_selector_uses_context (env : Env) (opts : ArchiveOptions)
    (hsel : opts.RepoArg = "") :
    (env.HttpClient = .ok () → contextLookups (archiveRun env opts).trace = 1) ∧
    hostLookups (archiveRun env opts).trace = 0 ∧
    identityLookups (archiveRun env opts).trace = [] := by
  have hl := fun sel => archiveSelector_lookups env opts sel
  cases hh : env.HttpClient with
  | error e =>
    simp [archiveRun_client_error env opts e hh, contextLookups, hostLookups, identityLookups]
  | ok c =>
    cases hb : env.BaseRepo with
    | error e =>
      simp [archiveRun_context_error env opts c e hh hsel hb, contextLookups, hostLookups,
        identityLookups]
    | ok r =>
      simp [archiveRun_context env opts c r hh hsel hb, after_trace, contextLookups,
        hostLookups, identityLookups, contextLookups_append, hostLookups_append,
        identityLookups_append, (hl _).1, (hl _).2.1, (hl _).2.2]

theorem C7_empty_selector_witness :
    (demoEnv.HttpClient = .ok () →
      contextLookups (archiveRun demoEnv ⟨"", false, false⟩).trace = 1) ∧
    hostLookups (archiveRun demoEnv ⟨"", false, false⟩).trace = 0 ∧
    identityLookups (archiveRun demoEnv ⟨"", false, false⟩).trace = [] :=
  C7_empty_selector_uses_context demoEnv ⟨"", false, false⟩ rfl

/-- C8, as stated, fails: in a context that cannot prompt, with the repository
override flag supplied and no confirmation given beforehand, the command passes
its guard and `archiveRun` calls the confirm prompt. -/
theorem C8_counterexample :
    headlessEnv.CanPrompt = false ∧
    prompts (RunE headlessEnv none true ⟨"", false, false⟩).trace =
      [("Archive octo/hello?", false)] := by
  decide

/-- C8, amended: for every invocation of the command, whatever flags were
supplied, the confirm prompt is called only if the context can prompt or the
repository override flag was supplied. -/
theorem C8_prompt_only_if_can_prompt_or_override (env : Env) (changed : Bool)
    (opts : ArchiveOptions)
    (hp : prompts (RunE env none changed opts).trace ≠ []) :
    env.CanPrompt = true ∨ changed = true := by
  by_contra hcon
  simp only [not_or, Bool.not_eq_true] at hcon
  obtain ⟨h1, h2⟩ := hcon
  apply hp
  cases hc : opts.Confirmed with
  | false => simp [RunE, hc, h1, h2, prompts]
  | true =>
    have h := archiveRun_override env opts changed
    rw [hc] at h
    simp [RunE, hc, h, archiveRun_prompts_confirmed env opts hc]

theorem C8_prompt_witness :
    prompts (RunE demoEnv none false ⟨"hello", false, false⟩).trace ≠ [] ∧
    (demoEnv.CanPrompt = true ∨ false = true) :=
  ⟨by decide,
    C8_prompt_only_if_can_prompt_or_override demoEnv false ⟨"hello", false, false⟩ (by decide)⟩

/-- C9: for every run of `archiveRun`, the success notice
"<icon> Archived repository <owner/name>" (for the reference that was fetched) is
what the run wrote to standard output if and only if the archive mutation was
invoked and returned without error and standard output is a terminal; in every
other run nothing is written to standard output; and when the mutation fails the
run returns the error "API called failed" wrapping the error of the mutation. -/
theorem C9_success_notice_iff (env : Env) (opts : ArchiveOptions) :
    ((∃ r, (r, fields) ∈ fetches (archiveRun env opts).trace ∧
        stdout (archiveRun env opts).trace =
          [env.SuccessIcon ++ " Archived repository " ++ ghrepo.FullName r ++ "\n"]) ↔
      (∃ snap, snap ∈ mutations (archiveRun env opts).trace ∧
        env.archiveRepo snap = .ok () ∧ env.IsStdoutTTY = true)) ∧
    ((¬ ∃ snap, snap ∈ mutations (archiveRun env opts).trace ∧
        env.archiveRepo snap = .ok () ∧ env.IsStdoutTTY = true) →
      stdout (archiveRun env opts).trace = []) ∧
    (∀ snap e, snap ∈ mutations (archiveRun env opts).trace →
      env.archiveRepo snap = .error e →
      (archiveRun env opts).err = some (.wrap "API called failed" e)) := by
  have wrapped : ∀ (snap : Repository), env.archiveRepo snap = .ok () →
      ∀ s e, s ∈ [snap] → env.archiveRepo s = .error e →
        (archiveRun env opts).err = some (.wrap "API called failed" e) := by
    intro snap he s e hs2 he2
    rw [List.mem_singleton] at hs2
    subst hs2
    rw [he] at he2
    cases he2
  cases archiveRun_ending env opts with
  | noMutation hm hs => simp [hm, hs]
  | failed snap e hm he herr hs =>
    simp only [hm, hs, List.mem_singleton]
    refine ⟨⟨fun ⟨_, _, h⟩ => by simp at h, fun ⟨s, h1, h2, _⟩ => ?_⟩, fun _ => trivial, ?_⟩
    · subst h1
      rw [he] at h2
      cases h2
    · intro s e2 h1 h2
      subst h1
      rw [he] at h2
      cases h2
      exact herr
  | archived r snap hf hm he hs =>
    rw [hm]
    refine ⟨?_, ?_, wrapped snap he⟩
    · cases ht : env.IsStdoutTTY with
      | false => simp [hs, ht]
      | true =>
        exact ⟨fun _ => ⟨snap, List.mem_singleton.2 rfl, he, rfl⟩,
          fun _ => ⟨r, hf, by rw [hs, ht]; rfl⟩⟩
    · intro h
      cases ht : env.IsStdoutTTY with
      | false => simp [hs, ht]
      | true => exact absurd ⟨snap, List.mem_singleton.2 rfl, he, ht⟩ h

/-- C10 fails on the code: with an empty selector and a context bound to
`octo/hello` on the host `ghe.example.com`, the reference passed to the state
fetch (and archived) has the same owner and name but the host `github.com`. -/
theorem C10_context_host_lost :
    (⟨"", false, true⟩ : ArchiveOptions).RepoArg = "" ∧
    demoEnv.BaseRepo = .ok ⟨"octo", "hello", "ghe.example.com"⟩ ∧
    fetches (archiveRun demoEnv ⟨"", false, true⟩).trace =
      [(⟨"octo", "hello", "github.com"⟩, fields)] ∧
    mutations (archiveRun demoEnv ⟨"", false, true⟩).trace =
      [⟨"R_1", "hello", "octo", false⟩] :=
  ⟨rfl, rfl, by decide, by decide⟩

end Archive
